import Mathlib

/-!
# Verification of afl-showmap

Shallow embedding of `afl-showmap.c` (american fuzzy lop: run program,
display map).  The coverage bitmap is modelled as a `List Nat` of byte
values (< 256); machine words are `Nat` with explicit `% 2^32` where
32-bit overflow matters.
-/

namespace AflShowmap

/-- Modelled from the spec: `MAP_SIZE` comes from `config.h`, which is not
part of this repository's sources; the spec fixes it only as a compile-time
constant.  We use the standard 64 kB AFL coverage-map size `1 <<< 16`,
consistent with the 5-digit zero-padded index format. -/
def MAP_SIZE : Nat := 65536

/-! ## classify_counts (afl-showmap.c lines 61-80)

The C `switch (*mem)` over a `u8`: cases `3`, `4 ... 7`, `8 ... 15`,
`16 ... 31`, `32 ... 127`, `128 ... 255`, with no `default` (values 0, 1, 2
are left unchanged). -/

/-- The per-byte rewrite performed inside the loop of `classify_counts`. -/
def classify (v : Nat) : Nat :=
  if v = 3 then 4
  else if 4 ≤ v ∧ v ≤ 7 then 8
  else if 8 ≤ v ∧ v ≤ 15 then 16
  else if 16 ≤ v ∧ v ≤ 31 then 32
  else if 32 ≤ v ∧ v ≤ 127 then 64
  else if 128 ≤ v ∧ v ≤ 255 then 128
  else v

/-- The function `classify_counts` walks the whole bitmap and rewrites each byte
in place; on a list bitmap this is a map. -/
def classify_counts (mem : List Nat) : List Nat :=
  mem.map classify

/-! ## count_bits (afl-showmap.c lines 104-122)

`count_bits` reinterprets the byte bitmap as `MAP_SIZE >> 2` 32-bit words
(little-endian, as on AFL's supported targets; the bit count is
endian-independent) and runs a SWAR popcount on each word, accumulating
into a `u32`. -/

/-- The SWAR popcount body of the `while` loop of `count_bits`, on one
32-bit word `v` (a `Nat` below `2^32`); the `* 0x1010101` is a `u32`
multiplication, hence the explicit `% 2^32`. -/
def swarWord (v : Nat) : Nat :=
  let v1 := v - ((v >>> 1) &&& 0x55555555)
  let v2 := (v1 &&& 0x33333333) + ((v1 >>> 2) &&& 0x33333333)
  ((((v2 + (v2 >>> 4)) &&& 0xF0F0F0F) * 0x1010101) % 4294967296) >>> 24

/-- Reinterpret the byte list as little-endian 32-bit words, as the cast
`(u32*)trace_bits` does; like the C loop bound `MAP_SIZE >> 2`, a trailing
group of fewer than 4 bytes is not read. -/
def words : List Nat → List Nat
  | b0 :: b1 :: b2 :: b3 :: rest =>
      (b0 + 256 * b1 + 65536 * b2 + 16777216 * b3) :: words rest
  | [] => []
  | [_] => []
  | [_, _] => []
  | [_, _, _] => []

/-- The function `count_bits`: sum the per-word SWAR popcounts in a `u32` accumulator. -/
def count_bits (m : List Nat) : Nat :=
  (words m).foldl (fun ret v => (ret + swarWord v) % 4294967296) 0

/-- Naive per-bit reference count of one byte: the number of set bits
among bit positions 0..7. -/
def popCount8 (b : Nat) : Nat :=
  (List.range 8).countP (fun i => b.testBit i)

/-! ## SWAR stages, named for the proofs

`swarWord` is definitionally `stD (stC (stB 0x33333333 (stA 0x55555555 v)))`
where the stages are the three lines of the C loop body. -/

/-- Stage `v -= ((v >> 1) & M)` with mask `M`. -/
def stA (M v : Nat) : Nat := v - ((v >>> 1) &&& M)

/-- Stage `v = (v & M) + ((v >> 2) & M)` with mask `M`. -/
def stB (M v : Nat) : Nat := (v &&& M) + ((v >>> 2) &&& M)

/-- Stage `(v + (v >> 4)) & 0xF0F0F0F`. -/
def stC (v : Nat) : Nat := (v + (v >>> 4)) &&& 0xF0F0F0F

/-- Stage `(v * 0x1010101) >> 24` in `u32` arithmetic. -/
def stD (v : Nat) : Nat := ((v * 0x1010101) % 4294967296) >>> 24

theorem swarWord_eq_stages (v : Nat) :
    swarWord v = stD (stC (stB 0x33333333 (stA 0x55555555 v))) := rfl

/-! ### Splitting bitwise operations at chunk boundaries -/

/-- Bitwise `&&&` splits across an aligned chunk boundary. -/
theorem landSplit (k y x n m : Nat) (hx : x < 2 ^ k) (hm : m < 2 ^ k) :
    (2 ^ k * y + x) &&& (2 ^ k * n + m) = 2 ^ k * (y &&& n) + (x &&& m) := by
  apply Nat.eq_of_testBit_eq
  intro j
  simp only [Nat.testBit_and, Nat.testBit_mul_pow_two_add _ hx,
    Nat.testBit_mul_pow_two_add _ hm,
    Nat.testBit_mul_pow_two_add _ (Nat.and_lt_two_pow x hm)]
  by_cases h : j < k <;> simp [h]

/-- Masking with a short mask erases everything above the mask's width. -/
theorem land_killtop (k w z m : Nat) (hz : z < 2 ^ k) (hm : m < 2 ^ k) :
    (2 ^ k * w + z) &&& m = z &&& m := by
  have h := landSplit k w z 0 m hz hm
  simpa using h

theorem land_split8 (y x n m : Nat) (hx : x < 256) (hm : m < 256) :
    (256 * y + x) &&& (256 * n + m) = 256 * (y &&& n) + (x &&& m) := by
  have h := landSplit 8 y x n m (by simpa using hx) (by simpa using hm)
  simpa using h

theorem land_killtop128 (w z m : Nat) (hz : z < 128) (hm : m < 128) :
    (128 * w + z) &&& m = z &&& m := by
  have h := land_killtop 7 w z m (by simpa using hz) (by simpa using hm)
  simpa using h

theorem land_killtop64 (w z m : Nat) (hz : z < 64) (hm : m < 64) :
    (64 * w + z) &&& m = z &&& m := by
  have h := land_killtop 6 w z m (by simpa using hz) (by simpa using hm)
  simpa using h

theorem land_killtop16 (w z m : Nat) (hz : z < 16) (hm : m < 16) :
    (16 * w + z) &&& m = z &&& m := by
  have h := land_killtop 4 w z m (by simpa using hz) (by simpa using hm)
  simpa using h

/-- Extracting a low nibble: `(16 * w + z) &&& 15 = z` for `z < 16`. -/
theorem byteMask (z w : Nat) (hz : z < 16) : (16 * w + z) &&& 15 = z := by
  rw [land_killtop16 w z 15 hz (by norm_num)]
  have h := Nat.and_pow_two_sub_one_of_lt_two_pow (x := z) (n := 4) (by simpa using hz)
  simpa using h

theorem shiftRight_one_eq (x : Nat) : x >>> 1 = x / 2 := by
  rw [Nat.shiftRight_eq_div_pow]

theorem shiftRight_two_eq (x : Nat) : x >>> 2 = x / 4 := by
  rw [Nat.shiftRight_eq_div_pow]

theorem shiftRight_four_eq (x : Nat) : x >>> 4 = x / 16 := by
  rw [Nat.shiftRight_eq_div_pow]

theorem shiftRight_24_eq (x : Nat) : x >>> 24 = x / 16777216 := by
  rw [Nat.shiftRight_eq_div_pow]

/-! ### The SWAR stages act bytewise -/

/-- Stage A splits at a byte boundary (the mask `0x55..55` has bit 7 of each
byte clear, so the bit shifted down across the boundary is discarded). -/
theorem stA_split (Mhi r b : Nat) (hb : b < 256) :
    stA (256 * Mhi + 85) (256 * r + b) = 256 * stA Mhi r + stA 85 b := by
  unfold stA
  have e1 : (256 * r + b) >>> 1 = 256 * (r / 2) + (128 * (r % 2) + b / 2) := by
    rw [shiftRight_one_eq]; omega
  have e2 : (256 * (r / 2) + (128 * (r % 2) + b / 2)) &&& (256 * Mhi + 85)
      = 256 * ((r / 2) &&& Mhi) + ((128 * (r % 2) + b / 2) &&& 85) :=
    land_split8 _ _ _ _ (by omega) (by norm_num)
  have e3 : (128 * (r % 2) + b / 2) &&& 85 = (b / 2) &&& 85 :=
    land_killtop128 (r % 2) (b / 2) 85 (by omega) (by norm_num)
  rw [e1, e2, e3, shiftRight_one_eq r, shiftRight_one_eq b]
  have hc : (r / 2) &&& Mhi ≤ r / 2 := Nat.and_le_left
  have hd : (b / 2) &&& 85 ≤ b / 2 := Nat.and_le_left
  omega

/-- Stage B splits at a byte boundary (the mask `0x33..33` has bits 6 and 7
of each byte clear). -/
theorem stB_split (Mhi r b : Nat) (hb : b < 256) :
    stB (256 * Mhi + 51) (256 * r + b) = 256 * stB Mhi r + stB 51 b := by
  unfold stB
  have e1 : (256 * r + b) &&& (256 * Mhi + 51)
      = 256 * (r &&& Mhi) + (b &&& 51) :=
    land_split8 _ _ _ _ hb (by norm_num)
  have e2 : (256 * r + b) >>> 2 = 256 * (r / 4) + (64 * (r % 4) + b / 4) := by
    rw [shiftRight_two_eq]; omega
  have e3 : (256 * (r / 4) + (64 * (r % 4) + b / 4)) &&& (256 * Mhi + 51)
      = 256 * ((r / 4) &&& Mhi) + ((64 * (r % 4) + b / 4) &&& 51) :=
    land_split8 _ _ _ _ (by omega) (by norm_num)
  have e4 : (64 * (r % 4) + b / 4) &&& 51 = (b / 4) &&& 51 :=
    land_killtop64 (r % 4) (b / 4) 51 (by omega) (by norm_num)
  rw [e1, e2, e3, e4, shiftRight_two_eq r, shiftRight_two_eq b]
  ring

/-- Stage A on a whole little-endian word acts on each byte separately. -/
theorem stA_word (b0 b1 b2 b3 : Nat) (h0 : b0 < 256) (h1 : b1 < 256)
    (h2 : b2 < 256) :
    stA 0x55555555 (b0 + 256 * b1 + 65536 * b2 + 16777216 * b3)
      = stA 85 b0 + 256 * stA 85 b1 + 65536 * stA 85 b2
        + 16777216 * stA 85 b3 := by
  rw [show b0 + 256 * b1 + 65536 * b2 + 16777216 * b3
        = 256 * (b1 + 256 * b2 + 65536 * b3) + b0 by ring,
      show (0x55555555 : Nat) = 256 * 0x555555 + 85 by norm_num,
      stA_split _ _ _ h0,
      show b1 + 256 * b2 + 65536 * b3 = 256 * (b2 + 256 * b3) + b1 by ring,
      show (0x555555 : Nat) = 256 * 0x5555 + 85 by norm_num,
      stA_split _ _ _ h1,
      show (0x5555 : Nat) = 256 * 85 + 85 by norm_num,
      show b2 + 256 * b3 = 256 * b3 + b2 by ring,
      stA_split _ _ _ h2]
  ring

/-- Stage B on a whole little-endian word acts on each byte separately. -/
theorem stB_word (a0 a1 a2 a3 : Nat) (h0 : a0 < 256) (h1 : a1 < 256)
    (h2 : a2 < 256) :
    stB 0x33333333 (a0 + 256 * a1 + 65536 * a2 + 16777216 * a3)
      = stB 51 a0 + 256 * stB 51 a1 + 65536 * stB 51 a2
        + 16777216 * stB 51 a3 := by
  rw [show a0 + 256 * a1 + 65536 * a2 + 16777216 * a3
        = 256 * (a1 + 256 * a2 + 65536 * a3) + a0 by ring,
      show (0x33333333 : Nat) = 256 * 0x333333 + 51 by norm_num,
      stB_split _ _ _ h0,
      show a1 + 256 * a2 + 65536 * a3 = 256 * (a2 + 256 * a3) + a1 by ring,
      show (0x333333 : Nat) = 256 * 0x3333 + 51 by norm_num,
      stB_split _ _ _ h1,
      show (0x3333 : Nat) = 256 * 51 + 51 by norm_num,
      show a2 + 256 * a3 = 256 * a3 + a2 by ring,
      stB_split _ _ _ h2]
  ring

set_option maxRecDepth 4096 in
/-- Exhaustive check over one byte: after stages A and B the byte holds the
popcounts of its two nibbles, each at most 4, summing to the byte's
popcount. -/
theorem byteFacts : ∀ b, b < 256 →
    stB 51 (stA 85 b) % 16 ≤ 4 ∧ stB 51 (stA 85 b) / 16 ≤ 4 ∧
    stB 51 (stA 85 b) % 16 + stB 51 (stA 85 b) / 16 = popCount8 b := by
  decide

/-- Stage C merges the two nibble counts of each byte. -/
theorem stC_word (q0 q1 q2 q3 : Nat)
    (c0 : q0 % 16 ≤ 4) (c1 : q0 / 16 ≤ 4) (c2 : q1 % 16 ≤ 4) (c3 : q1 / 16 ≤ 4)
    (c4 : q2 % 16 ≤ 4) (c5 : q2 / 16 ≤ 4) (c6 : q3 % 16 ≤ 4) (c7 : q3 / 16 ≤ 4) :
    stC (q0 + 256 * q1 + 65536 * q2 + 16777216 * q3)
      = (q0 % 16 + q0 / 16) + 256 * (q1 % 16 + q1 / 16)
        + 65536 * (q2 % 16 + q2 / 16) + 16777216 * (q3 % 16 + q3 / 16) := by
  unfold stC
  have hv : q0 + 256 * q1 + 65536 * q2 + 16777216 * q3
        + (q0 + 256 * q1 + 65536 * q2 + 16777216 * q3) >>> 4
      = 256 * (256 * (256 * (16 * (q3 / 16) + (q3 % 16 + q3 / 16))
                + (16 * (q2 / 16 + q3 % 16) + (q2 % 16 + q2 / 16)))
          + (16 * (q1 / 16 + q2 % 16) + (q1 % 16 + q1 / 16)))
        + (16 * (q0 / 16 + q1 % 16) + (q0 % 16 + q0 / 16)) := by
    rw [shiftRight_four_eq]
    omega
  rw [hv, show (0xF0F0F0F : Nat) = 256 * 0xF0F0F + 15 by norm_num,
      land_split8 _ _ _ _ (by omega) (by norm_num),
      show (0xF0F0F : Nat) = 256 * 0xF0F + 15 by norm_num,
      land_split8 _ _ _ _ (by omega) (by norm_num),
      show (0xF0F : Nat) = 256 * 15 + 15 by norm_num,
      land_split8 _ _ _ _ (by omega) (by norm_num),
      byteMask _ _ (by omega), byteMask _ _ (by omega),
      byteMask _ _ (by omega), byteMask _ _ (by omega)]
  ring

/-- Stage D sums the four per-byte counts into the top byte and extracts
it; in `u32` arithmetic this is exact because each count is at most 8. -/
theorem stD_word (p0 p1 p2 p3 : Nat)
    (h0 : p0 ≤ 8) (h1 : p1 ≤ 8) (h2 : p2 ≤ 8) (h3 : p3 ≤ 8) :
    stD (p0 + 256 * p1 + 65536 * p2 + 16777216 * p3) = p0 + p1 + p2 + p3 := by
  unfold stD
  rw [shiftRight_24_eq]
  have e : (p0 + 256 * p1 + 65536 * p2 + 16777216 * p3) * 0x1010101
      = p0 + 256 * (p0 + p1) + 65536 * (p0 + p1 + p2)
        + 16777216 * (p0 + p1 + p2 + p3)
        + 4294967296 * ((p1 + p2 + p3) + 256 * (p2 + p3) + 65536 * p3) := by
    ring
  rw [e, Nat.add_mul_mod_self_left,
      Nat.mod_eq_of_lt (by omega)]
  omega

/-- The SWAR loop body computes the exact popcount of a 4-byte word. -/
theorem swarWord_popCount (b0 b1 b2 b3 : Nat) (h0 : b0 < 256) (h1 : b1 < 256)
    (h2 : b2 < 256) (h3 : b3 < 256) :
    swarWord (b0 + 256 * b1 + 65536 * b2 + 16777216 * b3)
      = popCount8 b0 + popCount8 b1 + popCount8 b2 + popCount8 b3 := by
  have a0 : stA 85 b0 < 256 := lt_of_le_of_lt (Nat.sub_le _ _) h0
  have a1 : stA 85 b1 < 256 := lt_of_le_of_lt (Nat.sub_le _ _) h1
  have a2 : stA 85 b2 < 256 := lt_of_le_of_lt (Nat.sub_le _ _) h2
  obtain ⟨d0, d1, d2⟩ := byteFacts b0 h0
  obtain ⟨e0, e1, e2⟩ := byteFacts b1 h1
  obtain ⟨f0, f1, f2⟩ := byteFacts b2 h2
  obtain ⟨g0, g1, g2⟩ := byteFacts b3 h3
  rw [swarWord_eq_stages, stA_word _ _ _ _ h0 h1 h2,
      stB_word _ _ _ _ a0 a1 a2,
      stC_word _ _ _ _ d0 d1 e0 e1 f0 f1 g0 g1,
      stD_word _ _ _ _ (by omega) (by omega) (by omega) (by omega)]
  omega

/-! ### count_bits over the whole bitmap -/

theorem stD_lt (v : Nat) : stD v < 256 := by
  unfold stD
  rw [shiftRight_24_eq]
  have h := Nat.mod_lt (v * 0x1010101) (show 0 < 4294967296 by norm_num)
  omega

theorem swarWord_lt (v : Nat) : swarWord v < 256 := by
  rw [swarWord_eq_stages]; exact stD_lt _

theorem sum_map_swar_le (l : List Nat) : (l.map swarWord).sum ≤ 255 * l.length := by
  induction l with
  | nil => simp
  | cons v t ih =>
      have h := swarWord_lt v
      simp only [List.map_cons, List.sum_cons, List.length_cons]
      omega

theorem words_length : ∀ m : List Nat, (words m).length = m.length / 4
  | [] => rfl
  | [_] => by simp [words]
  | [_, _] => by simp [words]
  | [_, _, _] => by simp [words]
  | _ :: _ :: _ :: _ :: rest => by
      simp only [words, List.length_cons, words_length rest]
      omega

/-- The `u32` accumulator of `count_bits` never wraps while the running
total stays below `2^32`. -/
theorem foldl_mod_eq_sum : ∀ (l : List Nat) (r : Nat),
    r + (l.map swarWord).sum < 4294967296 →
    l.foldl (fun ret v => (ret + swarWord v) % 4294967296) r
      = r + (l.map swarWord).sum
  | [], r, _ => by simp
  | v :: t, r, h => by
      simp only [List.map_cons, List.sum_cons] at h
      simp only [List.foldl_cons, List.map_cons, List.sum_cons]
      rw [Nat.mod_eq_of_lt (by omega),
          foldl_mod_eq_sum t (r + swarWord v) (by omega)]
      ring

/-- Summing per-word SWAR popcounts equals summing per-byte reference
popcounts, for bitmaps whose length is a multiple of 4. -/
theorem words_sum : ∀ (m : List Nat), (∀ b ∈ m, b < 256) →
    m.length % 4 = 0 →
    ((words m).map swarWord).sum = (m.map popCount8).sum
  | [], _, _ => by simp [words]
  | [_], _, hl => by simp at hl
  | [_, _], _, hl => by simp at hl
  | [_, _, _], _, hl => by simp at hl
  | b0 :: b1 :: b2 :: b3 :: rest, hb, hl => by
      have h0 : b0 < 256 := hb b0 (by simp)
      have h1 : b1 < 256 := hb b1 (by simp)
      have h2 : b2 < 256 := hb b2 (by simp)
      have h3 : b3 < 256 := hb b3 (by simp)
      have hrest : ∀ b ∈ rest, b < 256 := fun b hbm => hb b (by simp [hbm])
      have hlen : rest.length % 4 = 0 := by
        simp only [List.length_cons] at hl
        omega
      have ih := words_sum rest hrest hlen
      simp only [words, List.map_cons, List.sum_cons]
      rw [swarWord_popCount _ _ _ _ h0 h1 h2 h3, ih]
      ring

/-- The function `count_bits` computes the naive total popcount of the bitmap. -/
theorem count_bits_eq_popsum (m : List Nat) (hb : ∀ b ∈ m, b < 256)
    (hl : m.length % 4 = 0) (hsz : m.length ≤ 65536) :
    count_bits m = (m.map popCount8).sum := by
  unfold count_bits
  have h1 := sum_map_swar_le (words m)
  have h2 := words_length m
  rw [foldl_mod_eq_sum _ 0 (by omega)]
  simpa using words_sum m hb hl

/-! ### Byte-level popcount facts -/

theorem popCount8_zero : popCount8 0 = 0 := rfl

set_option maxRecDepth 4096 in
theorem popCount8_bounds : ∀ v, v < 256 → 1 ≤ v →
    1 ≤ popCount8 v ∧ popCount8 v ≤ 8 := by decide

theorem popsum_replicate_zero (n : Nat) :
    ((List.replicate n 0).map popCount8).sum = 0 := by
  simp [List.map_replicate, popCount8_zero, List.sum_replicate]

/-- Total reference popcount of an all-zero bitmap with one byte set. -/
theorem popsum_single : ∀ (n i v : Nat), i < n →
    (((List.replicate n 0).set i v).map popCount8).sum = popCount8 v
  | 0, i, _, h => absurd h (Nat.not_lt_zero i)
  | n + 1, 0, v, _ => by
      simp only [List.replicate_succ, List.set_cons_zero, List.map_cons,
        List.sum_cons]
      rw [popsum_replicate_zero]
      omega
  | n + 1, i + 1, v, h => by
      simp only [List.replicate_succ, List.set_cons_succ, List.map_cons,
        List.sum_cons, popCount8_zero]
      rw [popsum_single n i v (by omega)]
      omega

/-! ## Claim C1: the classification table -/

set_option maxRecDepth 4096 in
/-- C1: for every byte value `v` in `[0,255]` the classification function
rewrites `v` exactly per the documented table (`{0,1,2}` unchanged, `3 → 4`,
`[4,7] → 8`, `[8,15] → 16`, `[16,31] → 32`, `[32,127] → 64`,
`[128,255] → 128`), and `classify_counts` applies this mapping independently
to every bitmap entry. -/
theorem C1_classify_table :
    (∀ v, v < 256 →
      ((v = 0 ∨ v = 1 ∨ v = 2) → classify v = v) ∧
      (v = 3 → classify v = 4) ∧
      (4 ≤ v ∧ v ≤ 7 → classify v = 8) ∧
      (8 ≤ v ∧ v ≤ 15 → classify v = 16) ∧
      (16 ≤ v ∧ v ≤ 31 → classify v = 32) ∧
      (32 ≤ v ∧ v ≤ 127 → classify v = 64) ∧
      (128 ≤ v ∧ v ≤ 255 → classify v = 128)) ∧
    (∀ (m : List Nat) (i : Nat),
      (classify_counts m)[i]? = (m[i]?).map classify) := by
  constructor
  · decide
  · intro m i
    simp [classify_counts]

/-- Witness for C1 at concrete inputs. -/
theorem C1_classify_table_witness :
    (5 : Nat) < 256 ∧ classify 5 = 8 ∧
    (classify_counts [0, 3])[1]? = (([0, 3] : List Nat)[1]?).map classify :=
  ⟨by decide, (C1_classify_table.1 5 (by decide)).2.2.1 (by decide),
    C1_classify_table.2 [0, 3] 1⟩

/-! ## Claim C2 (corrected): count_bits on zero / one-byte bitmaps

`count_bits` runs on the raw, pre-classification bitmap (`main` calls it
before `show_tuples` classifies), so a single byte with several set bits
is counted with all of them: the spec's "returns 1" is wrong. -/

/-- C2 counterexample: the bitmap whose single non-zero byte is 3 (a legal
value in 1..255) makes `count_bits` return 2, not 1. -/
theorem C2_counterexample :
    (3 :: List.replicate (MAP_SIZE - 1) 0).length = MAP_SIZE ∧
    count_bits (3 :: List.replicate (MAP_SIZE - 1) 0) = 2 ∧
    count_bits (3 :: List.replicate (MAP_SIZE - 1) 0) ≠ 1 := by
  have hb : ∀ b ∈ (3 :: List.replicate (MAP_SIZE - 1) 0), b < 256 := by
    intro b hbm
    rcases List.mem_cons.1 hbm with h | h
    · omega
    · have := List.eq_of_mem_replicate h
      omega
  have hlen : (3 :: List.replicate (MAP_SIZE - 1) 0).length = MAP_SIZE := by
    rw [List.length_cons, List.length_replicate]
    decide
  have hc : count_bits (3 :: List.replicate (MAP_SIZE - 1) 0) = 2 := by
    rw [count_bits_eq_popsum _ hb (by rw [hlen]; rfl) (by rw [hlen]; decide),
        List.map_cons, List.sum_cons, popsum_replicate_zero]
    decide
  exact ⟨hlen, hc, by omega⟩

/-- C2 amended: `count_bits` over the all-zero bitmap returns 0, and over a
bitmap with exactly one non-zero byte `v` (1..255) it returns the number of
set bits of `v` — a value between 1 and 8, equal to 1 only when `v` is a
power of two. -/
theorem C2_amended (i v : Nat) (hi : i < MAP_SIZE) (h1 : 1 ≤ v)
    (h255 : v ≤ 255) :
    count_bits (List.replicate MAP_SIZE 0) = 0 ∧
    count_bits ((List.replicate MAP_SIZE 0).set i v) = popCount8 v ∧
    1 ≤ popCount8 v ∧ popCount8 v ≤ 8 := by
  have hlr : (List.replicate MAP_SIZE (0 : Nat)).length = MAP_SIZE :=
    List.length_replicate MAP_SIZE 0
  have hz : count_bits (List.replicate MAP_SIZE 0) = 0 := by
    rw [count_bits_eq_popsum]
    · exact popsum_replicate_zero _
    · intro b hbm
      have := List.eq_of_mem_replicate hbm
      omega
    · rw [hlr]; rfl
    · rw [hlr]; decide
  have hb : ∀ b ∈ (List.replicate MAP_SIZE 0).set i v, b < 256 := by
    intro b hbm
    rcases List.mem_or_eq_of_mem_set hbm with h | h
    · have := List.eq_of_mem_replicate h
      omega
    · omega
  have hs : count_bits ((List.replicate MAP_SIZE 0).set i v) = popCount8 v := by
    rw [count_bits_eq_popsum _ hb (by rw [List.length_set, hlr]; rfl)
      (by rw [List.length_set, hlr]; decide)]
    exact popsum_single _ _ _ hi
  obtain ⟨hp1, hp8⟩ := popCount8_bounds v (by omega) h1
  exact ⟨hz, hs, hp1, hp8⟩

/-- Witness for C2 (amended) at index 10, byte value 3. -/
theorem C2_amended_witness :
    (10 : Nat) < MAP_SIZE ∧ (1 : Nat) ≤ 3 ∧ (3 : Nat) ≤ 255 ∧
    (count_bits (List.replicate MAP_SIZE 0) = 0 ∧
     count_bits ((List.replicate MAP_SIZE 0).set 10 3) = popCount8 3 ∧
     1 ≤ popCount8 3 ∧ popCount8 3 ≤ 8) :=
  ⟨by decide, by decide, by decide, C2_amended 10 3 (by decide) (by decide) (by decide)⟩

/-! ## Claim C3: count_bits refines the naive per-bit count -/

/-- C3: for every bitmap of `MAP_SIZE` bytes, the word-chunked SWAR popcount
of `count_bits` equals the naive per-bit reference count summed over all
bytes (`MAP_SIZE` is a multiple of 4). -/
theorem C3_count_bits_refines (m : List Nat) (hb : ∀ b ∈ m, b < 256)
    (hl : m.length = MAP_SIZE) :
    count_bits m = (m.map popCount8).sum := by
  apply count_bits_eq_popsum m hb
  · rw [hl]; rfl
  · rw [hl]; decide

/-- Witness for C3 on the all-zero bitmap. -/
theorem C3_count_bits_refines_witness :
    (∀ b ∈ List.replicate MAP_SIZE 0, b < 256) ∧
    (List.replicate MAP_SIZE 0).length = MAP_SIZE ∧
    count_bits (List.replicate MAP_SIZE 0)
      = ((List.replicate MAP_SIZE 0).map popCount8).sum := by
  have hb : ∀ b ∈ List.replicate MAP_SIZE 0, b < 256 := by
    intro b hbm
    have := List.eq_of_mem_replicate hbm
    omega
  have hl : (List.replicate MAP_SIZE (0 : Nat)).length = MAP_SIZE :=
    List.length_replicate MAP_SIZE 0
  exact ⟨hb, hl, C3_count_bits_refines _ hb hl⟩

/-! ## Claim C4 (corrected): idempotence fails, monotonicity holds

`classify 3 = 4` but `classify 4 = 8`, so `classify` is not idempotent on
the buckets 4, 8, 16 and 32 (raw values 3..31). -/

/-- C4 counterexample: at raw value 3 the classification is not
idempotent: `classify (classify 3) = 8 ≠ 4 = classify 3`. -/
theorem C4_counterexample :
    (3 : Nat) < 256 ∧ classify (classify 3) ≠ classify 3 := by decide

set_option maxRecDepth 8192 in
/-- C4 amended: `classify` is monotonically non-decreasing on `[0,255]`;
idempotence holds only outside the raw range `[3,31]`, i.e. for
`v ∈ {0,1,2} ∪ [32,255]` (it fails for every `v ∈ [3,31]`). -/
theorem C4_amended :
    (∀ v, v < 256 → (v ≤ 2 ∨ 32 ≤ v) → classify (classify v) = classify v) ∧
    (∀ v, v < 32 → 3 ≤ v → classify (classify v) ≠ classify v) ∧
    (∀ v2, v2 < 256 → ∀ v1, v1 ≤ v2 → classify v1 ≤ classify v2) := by
  exact ⟨by decide, by decide, by decide⟩

/-- Witness for C4 (amended) at concrete inputs. -/
theorem C4_amended_witness :
    ((40 : Nat) < 256 ∧ ((40 : Nat) ≤ 2 ∨ (32 : Nat) ≤ 40) ∧
      classify (classify 40) = classify 40) ∧
    ((5 : Nat) < 32 ∧ (3 : Nat) ≤ 5 ∧ classify (classify 5) ≠ classify 5) ∧
    ((200 : Nat) < 256 ∧ (3 : Nat) ≤ 200 ∧ classify 3 ≤ classify 200) :=
  ⟨⟨by decide, by decide, C4_amended.1 40 (by decide) (by decide)⟩,
   ⟨by decide, by decide, C4_amended.2.1 5 (by decide) (by decide)⟩,
   ⟨by decide, by decide, C4_amended.2.2 200 (by decide) 3 (by decide)⟩⟩

/-! ## show_tuples (afl-showmap.c lines 84-99)

`show_tuples` classifies the bitmap in place, then walks indices
`0 .. MAP_SIZE-1` printing `SAYF("%05u/%u\n", i, *current)` for each
non-zero entry.  We model the printed report as the list of emitted
lines. -/

/-- Format `%05u`: decimal digits, left-padded with zeros to width (at least) 5. -/
def pad5 (i : Nat) : String :=
  String.mk (List.replicate (5 - (Nat.repr i).length) (Char.ofNat 48))
    ++ Nat.repr i

/-- One line of the tuple report: `"%05u/%u\n"`. -/
def fmtLine (i v : Nat) : String :=
  pad5 i ++ "/" ++ Nat.repr v ++ "\n"

/-- The printing loop of `show_tuples`, walking the (already classified)
bitmap with a running index. -/
def tuplesFrom : Nat → List Nat → List String
  | _, [] => []
  | i, v :: rest =>
      (if v ≠ 0 then [fmtLine i v] else []) ++ tuplesFrom (i + 1) rest

/-- The function `show_tuples`: classify, then print one line per non-zero entry. -/
def show_tuples (m : List Nat) : List String :=
  tuplesFrom 0 (classify_counts m)

theorem tuplesFrom_spec : ∀ (l : List Nat) (i : Nat),
    tuplesFrom i l
      = ((l.enumFrom i).filter (fun p => p.2 ≠ 0)).map
          (fun p => fmtLine p.1 p.2)
  | [], _ => rfl
  | v :: rest, i => by
      simp only [tuplesFrom, List.enumFrom_cons, List.filter_cons]
      rw [tuplesFrom_spec rest (i + 1)]
      by_cases h : v = 0
      · simp [h]
      · simp [h]

/-- C5: the tuple report contains exactly one line per non-zero classified
bitmap entry, in ascending index order, each line being the 5-digit
zero-padded decimal index, a slash, the classified value, and a newline;
zero entries produce no line. -/
theorem C5_show_tuples (m : List Nat) :
    show_tuples m
      = (((classify_counts m).enum.filter (fun p => p.2 ≠ 0)).map
          (fun p => pad5 p.1 ++ "/" ++ Nat.repr p.2 ++ "\n")) := by
  unfold show_tuples
  rw [tuplesFrom_spec, List.enum_eq_enumFrom]
  rfl

/-! ## Claim C10: classification preserves the support -/

/-- C10: `classify v = 0` exactly when `v = 0`, so `classify_counts`
leaves the set of non-zero indices unchanged. -/
theorem C10_support_preserved :
    (∀ v, classify v = 0 ↔ v = 0) ∧
    (∀ (m : List Nat) (i : Nat),
      ((classify_counts m)[i]? = some 0 ↔ m[i]? = some 0)) := by
  have h : ∀ v, classify v = 0 ↔ v = 0 := by
    intro v
    unfold classify
    split_ifs <;> simp <;> omega
  refine ⟨h, ?_⟩
  intro m i
  simp only [classify_counts, List.getElem?_map]
  cases hm : m[i]? with
  | none => simp
  | some b => simp [h b]

/-! ## run_target (afl-showmap.c lines 160-235), parent side

The parent closes the unused pipe ends, writes one 4-byte trigger to the
control pipe, then reads three 4-byte fields (ack, worker pid, raw exit
status) from the status pipe.  We model the outcome of `write` as the
byte count it returned, and the status pipe as a stream of `read` results:
`reads j = (bytes returned, value read)` for the `j`-th read issued. -/

/-- The single error message used for every handshake fault. -/
def fatalMsg : String := "No instrumentation detected or fork server fault"

/-- Outcome of `run_target`: either a `FATAL` (modelled from the spec:
`FATAL` from `debug.h`, which is not part of this repository's sources,
prints the message and exits with a non-zero status), or the worker's raw
exit status. -/
inductive RunResult where
  | fatal (msg : String)
  | ok (status : Int)
deriving DecidableEq

/-- Parent side of `run_target`: the `write` of 4 bytes, then the
three-field handshake with the C short-circuit order
`r0 ≠ 4 || r1 ≠ 4 || pid ≤ 0 || r2 ≠ 4`. -/
def run_target (ctlWrite : Nat) (reads : Nat → Nat × Int) : RunResult :=
  if ctlWrite ≠ 4 then RunResult.fatal fatalMsg
  else if (reads 0).1 ≠ 4 ∨ (reads 1).1 ≠ 4 ∨ (reads 1).2 ≤ 0
            ∨ (reads 2).1 ≠ 4 then RunResult.fatal fatalMsg
  else RunResult.ok (reads 2).2

/-- How many `read` calls the short-circuiting condition actually issues. -/
def handshakeReadCount (ctlWrite : Nat) (reads : Nat → Nat × Int) : Nat :=
  if ctlWrite ≠ 4 then 0
  else if (reads 0).1 ≠ 4 then 1
  else if (reads 1).1 ≠ 4 ∨ (reads 1).2 ≤ 0 then 2
  else 3

/-! ## main (afl-showmap.c lines 257-288), as an event trace

`main` prints the banner unless `AFL_QUIET` is set, shows usage and exits 1
when no target is given, sets up shared memory, runs the target, checks
`count_bits`, and prints the tuple report.  We record its externally
visible behaviour as an ordered list of events. -/

/-- The two environment toggles read by `main`. -/
structure Env where
  quiet : Bool
  sink : Bool

/-- Externally visible steps of one invocation. -/
inductive Event where
  | banner
  | usageText
  | shmSetup
  | progBegin
  | progEnd
  | killedBy (sig : Nat)
  | fatalOut (msg : String)
  | tuplesBanner
  | tupleLine (s : String)
  | exited (code : Nat)
deriving DecidableEq

/-- Modelled from the spec: the raw wait status reports death by signal
when its low 7 bits are neither 0 (normal exit) nor 0x7f (stopped); this
mirrors the POSIX `WIFSIGNALED` macro used by the source (`sys/wait.h` is
not part of this repository's sources). -/
def wifsignaled (st : Int) : Bool :=
  decide (st % 128 ≠ 0 ∧ st % 128 ≠ 127)

/-- Modelled from the spec: `WTERMSIG`, the low 7 bits of the status. -/
def wtermsig (st : Int) : Nat := (st % 128).toNat

/-- The event trace of `main`, given the argument vector, the two
environment toggles, the handshake outcomes and the bitmap contents the
target's execution left in shared memory. -/
def mainTrace (env : Env) (args : List String) (w : Nat)
    (reads : Nat → Nat × Int) (bitmap : List Nat) : List Event :=
  (if env.quiet then [] else [Event.banner]) ++
  (if args.length < 2 then [Event.usageText, Event.exited 1]
   else
    [Event.shmSetup] ++
    (if ¬env.quiet ∧ ¬env.sink then [Event.progBegin] else []) ++
    (match run_target w reads with
     | RunResult.fatal msg => [Event.fatalOut msg, Event.exited 1]
     | RunResult.ok st =>
        (if wifsignaled st then [Event.killedBy (wtermsig st)] else []) ++
        (if ¬env.quiet ∧ ¬env.sink then [Event.progEnd] else []) ++
        (if count_bits bitmap = 0 then
          [Event.fatalOut "No instrumentation data recorded", Event.exited 1]
         else
          (if ¬env.quiet then [Event.tuplesBanner] else []) ++
          (show_tuples bitmap).map Event.tupleLine ++ [Event.exited 0])))

def isExited : Event → Option Nat
  | Event.exited c => some c
  | _ => none

def isTuple : Event → Option String
  | Event.tupleLine s => some s
  | _ => none

/-- The process exit status: the first `exit` call in the trace. -/
def exitCode (t : List Event) : Option Nat :=
  (t.filterMap isExited).head?

/-- The tuple report: the sequence of tuple lines in the trace. -/
def tupleReport (t : List Event) : List String :=
  t.filterMap isTuple

theorem filterMap_isExited_tuples (l : List String) :
    (l.map Event.tupleLine).filterMap isExited = [] := by
  induction l with
  | nil => rfl
  | cons s t ih => simp [isExited, ih]

theorem filterMap_isTuple_tuples (l : List String) :
    (l.map Event.tupleLine).filterMap isTuple = l := by
  induction l with
  | nil => rfl
  | cons s t ih => simp [isTuple, ih]

theorem filterMap_isExited_comp (l : List String) :
    List.filterMap (isExited ∘ Event.tupleLine) l = [] := by
  induction l with
  | nil => rfl
  | cons s t ih => simp [isExited, ih]

theorem filterMap_isTuple_comp (l : List String) :
    List.filterMap (isTuple ∘ Event.tupleLine) l = l := by
  induction l with
  | nil => rfl
  | cons s t ih => simp [isTuple, ih]

/-- What `main` exits with, in every branch. -/
theorem exitCode_mainTrace (env : Env) (args : List String) (w : Nat)
    (reads : Nat → Nat × Int) (bitmap : List Nat) :
    exitCode (mainTrace env args w reads bitmap)
      = if args.length < 2 then some 1
        else match run_target w reads with
          | RunResult.fatal _ => some 1
          | RunResult.ok _ =>
              if count_bits bitmap = 0 then some 1 else some 0 := by
  unfold mainTrace exitCode
  by_cases ha : args.length < 2
  · cases hq : env.quiet <;> simp [ha, isExited, List.filterMap_append]
  · cases hr : run_target w reads with
    | fatal msg =>
        cases hq : env.quiet <;> cases hs : env.sink <;>
          simp [ha, isExited, List.filterMap_append]
    | ok st =>
        by_cases hc : count_bits bitmap = 0 <;>
          cases hw : wifsignaled st <;>
          cases hq : env.quiet <;> cases hs : env.sink <;>
          simp [ha, hc, hw, isExited, List.filterMap_append,
            filterMap_isExited_tuples, filterMap_isExited_comp]

/-- The tuple lines `main` emits, in every branch. -/
theorem tupleReport_mainTrace (env : Env) (args : List String) (w : Nat)
    (reads : Nat → Nat × Int) (bitmap : List Nat) :
    tupleReport (mainTrace env args w reads bitmap)
      = if args.length < 2 then []
        else match run_target w reads with
          | RunResult.fatal _ => []
          | RunResult.ok _ =>
              if count_bits bitmap = 0 then [] else show_tuples bitmap := by
  unfold mainTrace tupleReport
  by_cases ha : args.length < 2
  · cases hq : env.quiet <;> simp [ha, isTuple, List.filterMap_append]
  · cases hr : run_target w reads with
    | fatal msg =>
        cases hq : env.quiet <;> cases hs : env.sink <;>
          simp [ha, isTuple, List.filterMap_append]
    | ok st =>
        by_cases hc : count_bits bitmap = 0 <;>
          cases hw : wifsignaled st <;>
          cases hq : env.quiet <;> cases hs : env.sink <;>
          simp [ha, hc, hw, isTuple, List.filterMap_append,
            filterMap_isTuple_tuples, filterMap_isTuple_comp]

/-! ## Claim C7: the handshake protocol -/

/-- C7: with the 4-byte control write done, the parent reads exactly three
4-byte fields in fixed order (ack, worker pid, exit status); any read
returning fewer than 4 bytes, or a non-positive pid, fails fatally with the
single "no instrumentation / fork server fault" message; at most three
reads are ever issued (no retry), and the outcome depends only on the
first three read results. -/
theorem C7_handshake (w : Nat) (reads : Nat → Nat × Int)
    (hw : w = 4) (hr : ∀ j, (reads j).1 ≤ 4) :
    ((reads 0).1 < 4 ∨ (reads 1).1 < 4 ∨ (reads 2).1 < 4 ∨ (reads 1).2 ≤ 0 →
        run_target w reads = RunResult.fatal fatalMsg) ∧
    ((reads 0).1 = 4 → (reads 1).1 = 4 → (reads 2).1 = 4 → 0 < (reads 1).2 →
        run_target w reads = RunResult.ok (reads 2).2
          ∧ handshakeReadCount w reads = 3) ∧
    handshakeReadCount w reads ≤ 3 ∧
    (∀ reads2 : Nat → Nat × Int, (∀ j, j < 3 → reads j = reads2 j) →
        run_target w reads = run_target w reads2) := by
  subst hw
  have h0 := hr 0
  have h1 := hr 1
  have h2 := hr 2
  refine ⟨?_, ?_, ?_, ?_⟩
  · intro h
    unfold run_target
    split_ifs <;> first | rfl | omega
  · intro e0 e1 e2 ep
    unfold run_target handshakeReadCount
    split_ifs <;> first | exact ⟨rfl, rfl⟩ | omega
  · unfold handshakeReadCount
    split_ifs <;> omega
  · intro reads2 hsame
    unfold run_target
    rw [hsame 0 (by omega), hsame 1 (by omega), hsame 2 (by omega)]

/-- Witness for C7 with a successful concrete handshake
(ack read 4 bytes, pid 1234, status read 4 bytes). -/
theorem C7_handshake_witness :
    run_target 4 (fun j => if j = 1 then ((4 : Nat), (1234 : Int)) else (4, 0))
        = RunResult.ok 0
      ∧ handshakeReadCount 4
          (fun j => if j = 1 then ((4 : Nat), (1234 : Int)) else (4, 0)) = 3 :=
  (C7_handshake 4 (fun j => if j = 1 then ((4 : Nat), (1234 : Int)) else (4, 0))
      rfl (fun j => by by_cases h : j = 1 <;> simp [h])).2.1
    rfl rfl rfl (by decide)

/-! ## Claim C6: process exit status -/

/-- C6: the process exits 0 exactly when a target argument was given, the
fork-server handshake completed, and the raw bitmap contains at least one
set bit; a zero `count_bits` after a successful run, any handshake failure
and a missing argument all exit 1 (the only other exit status). -/
theorem C6_exit_status (env : Env) (args : List String) (w : Nat)
    (reads : Nat → Nat × Int) (bitmap : List Nat)
    (hb : ∀ b ∈ bitmap, b < 256) (hl : bitmap.length = MAP_SIZE) :
    (exitCode (mainTrace env args w reads bitmap) = some 0 ↔
      (2 ≤ args.length ∧ (∃ st, run_target w reads = RunResult.ok st)
        ∧ 0 < (bitmap.map popCount8).sum)) ∧
    (exitCode (mainTrace env args w reads bitmap) = some 0 ∨
      exitCode (mainTrace env args w reads bitmap) = some 1) := by
  have hcb : count_bits bitmap = (bitmap.map popCount8).sum :=
    count_bits_eq_popsum bitmap hb (by rw [hl]; rfl) (by rw [hl]; decide)
  refine ⟨?_, ?_⟩
  · rw [exitCode_mainTrace]
    by_cases ha : args.length < 2
    · rw [if_pos ha]
      constructor
      · intro h; simp at h
      · rintro ⟨h2, -, -⟩; omega
    · rw [if_neg ha]
      cases hr : run_target w reads with
      | fatal msg =>
          constructor
          · intro h; simp at h
          · rintro ⟨-, ⟨st, hst⟩, -⟩
            simp at hst
      | ok st =>
          rw [hcb]
          by_cases hc : (bitmap.map popCount8).sum = 0
          · rw [if_pos hc]
            constructor
            · intro h; simp at h
            · rintro ⟨-, -, hpos⟩; omega
          · rw [if_neg hc]
            constructor
            · intro _; exact ⟨by omega, ⟨st, rfl⟩, by omega⟩
            · intro _; rfl
  · rw [exitCode_mainTrace]
    by_cases ha : args.length < 2
    · simp [ha]
    · rw [if_neg ha]
      cases hr : run_target w reads with
      | fatal msg => simp
      | ok st => by_cases hc : count_bits bitmap = 0 <;> simp [hc]

/-- Witness for C6 on a run with two arguments, a successful handshake, and
one touched bitmap entry. -/
theorem C6_exit_status_witness :
    (∀ b ∈ (List.replicate MAP_SIZE 0).set 0 1, b < 256) ∧
    ((List.replicate MAP_SIZE 0).set 0 1).length = MAP_SIZE ∧
    (exitCode (mainTrace ⟨false, false⟩ ["./target", "arg"] 4
        (fun j => if j = 1 then ((4 : Nat), (1234 : Int)) else (4, 0))
        ((List.replicate MAP_SIZE 0).set 0 1)) = some 0 ∨
     exitCode (mainTrace ⟨false, false⟩ ["./target", "arg"] 4
        (fun j => if j = 1 then ((4 : Nat), (1234 : Int)) else (4, 0))
        ((List.replicate MAP_SIZE 0).set 0 1)) = some 1) := by
  have hb : ∀ b ∈ (List.replicate MAP_SIZE 0).set 0 1, b < 256 := by
    intro b hbm
    rcases List.mem_or_eq_of_mem_set hbm with h | h
    · have := List.eq_of_mem_replicate h
      omega
    · omega
  have hl : ((List.replicate MAP_SIZE 0).set 0 1).length = MAP_SIZE := by
    rw [List.length_set, List.length_replicate]
  exact ⟨hb, hl,
    (C6_exit_status ⟨false, false⟩ ["./target", "arg"] 4
      (fun j => if j = 1 then ((4 : Nat), (1234 : Int)) else (4, 0))
      ((List.replicate MAP_SIZE 0).set 0 1) hb hl).2⟩

/-! ## Claim C8: missing argument, no shared memory -/

/-- C8: invoked with no target argument, the tool prints the usage text and
exits 1; the trace contains no shared-memory setup event, so `setup_shm`
never runs on that path. -/
theorem C8_usage_no_shm (env : Env) (args : List String) (w : Nat)
    (reads : Nat → Nat × Int) (bitmap : List Nat) (h : args.length < 2) :
    mainTrace env args w reads bitmap
      = (if env.quiet then [] else [Event.banner])
        ++ [Event.usageText, Event.exited 1] ∧
    Event.shmSetup ∉ mainTrace env args w reads bitmap ∧
    exitCode (mainTrace env args w reads bitmap) = some 1 := by
  have ht : mainTrace env args w reads bitmap
      = (if env.quiet then [] else [Event.banner])
        ++ [Event.usageText, Event.exited 1] := by
    unfold mainTrace
    rw [if_pos h]
  refine ⟨ht, ?_, ?_⟩
  · rw [ht]
    cases env.quiet <;> simp
  · rw [exitCode_mainTrace, if_pos h]

/-- Witness for C8 with an empty argument vector. -/
theorem C8_usage_no_shm_witness :
    ([] : List String).length < 2 ∧
    Event.shmSetup ∉ mainTrace ⟨false, false⟩ [] 0 (fun _ => (0, 0)) [] :=
  ⟨by decide,
   (C8_usage_no_shm ⟨false, false⟩ [] 0 (fun _ => (0, 0)) [] (by decide)).2.1⟩

/-! ## Claim C9: the tuple report ignores the quiet/sink toggles -/

/-- C9: two runs that differ only in the `AFL_QUIET` / `AFL_SINK_OUTPUT`
toggles but share the argument vector, handshake outcomes and bitmap emit
exactly the same sequence of tuple report lines: the toggles affect only
informational banners. -/
theorem C9_report_toggle_independent (e1 e2 : Env) (args : List String)
    (w : Nat) (reads : Nat → Nat × Int) (bitmap : List Nat) :
    tupleReport (mainTrace e1 args w reads bitmap)
      = tupleReport (mainTrace e2 args w reads bitmap) := by
  rw [tupleReport_mainTrace, tupleReport_mainTrace]

end AflShowmap
